import Mathlib

/-!
Verification development for the veriglob-core decentralized-identity
library: a shallow embedding of its identifier codec (internal/did,
internal/resolver), its credential and presentation token protocol
(internal/vc, internal/presentation, over the PASETO v4.public token
scheme of aidanwoods.dev/go-paseto), and its revocation registry
(internal/revocation), together with theorems about them.

Conventions of the embedding:
- Go byte slices are `List Nat` with every element `< 256`.
- Go strings are `String`, except in the identifier codec where
  character-level work is needed and they are `List Char`.
- `time.Time` values are `Int` (an absolute timestamp); `time.Now()`
  becomes an explicit `now : Int` parameter and a Go duration a
  constant added to it.  `t.After(u)` is `t > u`.
- Ed25519 is modelled symbolically: a private key is its Go 64-byte
  form seed ‖ public-key, so the public key of `priv` is `priv.drop 32`
  (exactly `ed25519.PrivateKey.Public`), a signed token records the
  public key of its signer, and signature verification succeeds exactly
  for that public key (the EUF-CMA idealization).
- Randomness (presentation ids) is passed in as an explicit parameter.
- The Go `map[string]*Entry` of the registry is modelled with an
  explicit heap (`List Entry`) plus an association list from credential
  id to heap location, so that pointer aliasing between the map and
  values returned to callers is observable.
-/

/-! ## Base58 (github.com/mr-tron/base58, btc alphabet)

`Encode` treats the byte slice as a big-endian big integer, emitting one
alphabet character per base-58 digit, with one leading '1' per leading
zero byte.  `Decode` is the inverse and rejects characters outside the
alphabet. -/

def b58Alphabet : List Char :=
  ['1', '2', '3', '4', '5', '6', '7', '8', '9',
   'A', 'B', 'C', 'D', 'E', 'F', 'G', 'H', 'J', 'K', 'L', 'M', 'N',
   'P', 'Q', 'R', 'S', 'T', 'U', 'V', 'W', 'X', 'Y', 'Z',
   'a', 'b', 'c', 'd', 'e', 'f', 'g', 'h', 'i', 'j', 'k', 'm', 'n',
   'o', 'p', 'q', 'r', 's', 't', 'u', 'v', 'w', 'x', 'y', 'z']

/-- The alphabet character of one base-58 digit. -/
def b58Char (d : Nat) : Char := b58Alphabet.getD d '1'

/-- Index of a character in a character list (leftmost match). -/
def indexIn : List Char → Char → Option Nat
  | [], _ => none
  | a :: rest, c => if a = c then some 0 else (indexIn rest c).map (· + 1)

/-- The base-58 digit of an alphabet character; `none` for a character
outside the alphabet (the decode error of the Go library). -/
def charTo58 (c : Char) : Option Nat := indexIn b58Alphabet c

/-- Big-endian value of a digit list in base `b`: the accumulator loop
`total = total*b + digit` of the Go encoder and decoder. -/
def beVal (b : Nat) (ds : List Nat) : Nat := ds.foldl (fun acc d => acc * b + d) 0

/-- Little-endian base-`b` digits of `n`, with explicit fuel so the
recursion is structural. -/
def digitsLEAux (b : Nat) : Nat → Nat → List Nat
  | 0, _ => []
  | fuel + 1, n => if n = 0 then [] else n % b :: digitsLEAux b fuel (n / b)

/-- Little-endian base-`b` digits of `n`. -/
def digitsLE (b n : Nat) : List Nat := digitsLEAux b n n

/-- Number of leading zero bytes of a byte slice. -/
def leadingZeroBytes : List Nat → Nat
  | [] => 0
  | b :: rest => if b = 0 then leadingZeroBytes rest + 1 else 0

/-- Base58 encoding of a byte slice (mr-tron/base58 `Encode`). -/
def b58Encode (bs : List Nat) : List Char :=
  List.replicate (leadingZeroBytes bs) '1' ++
    (digitsLE 58 (beVal 256 bs)).reverse.map b58Char

/-- Digits of a character list; `none` as soon as one character is not in
the alphabet. -/
def charsTo58 : List Char → Option (List Nat)
  | [] => some []
  | c :: cs =>
    match charTo58 c, charsTo58 cs with
    | some d, some ds => some (d :: ds)
    | _, _ => none

/-- Number of leading '1' characters of an encoded string. -/
def leadingOneChars : List Char → Nat
  | [] => 0
  | c :: rest => if c = '1' then leadingOneChars rest + 1 else 0

/-- Base58 decoding of a string (mr-tron/base58 `Decode`): one zero byte
per leading '1', then the big-endian bytes of the base-58 value. -/
def b58Decode (s : List Char) : Option (List Nat) :=
  match charsTo58 s with
  | none => none
  | some ds =>
    some (List.replicate (leadingOneChars s) 0 ++ (digitsLE 256 (beVal 58 ds)).reverse)

/-! ## Identifier codec: derivation (internal/did, `CreateDIDKey`) -/

/-- Multicodec tag for Ed25519 public keys, `{0xed, 0x01}`. -/
def ed25519Multicodec : List Nat := [0xed, 0x01]

structure VerificationMethod where
  id : List Char
  type : List Char
  controller : List Char
  publicKeyBase58 : List Char
deriving DecidableEq, Repr

structure DIDDocument where
  context : List (List Char)
  id : List Char
  verificationMethod : List VerificationMethod
  authentication : List (List Char)
  assertionMethod : List (List Char)
deriving DecidableEq, Repr

structure DIDKey where
  did : List Char
  publicKey : List Nat
  didDocument : DIDDocument
deriving DecidableEq, Repr

/-- `CreateDIDKey` (internal/did/did.go): tag the raw key with the
multicodec bytes, multibase-encode ('z' + base58) and format the
identifier and its document.  The Go function never returns an error. -/
def CreateDIDKey (pub : List Nat) : DIDKey :=
  let encoded : List Char := 'z' :: b58Encode (ed25519Multicodec ++ pub)
  let did : List Char := "did:key:".data ++ encoded
  let vmID : List Char := did ++ "#key-1".data
  { did := did
    publicKey := pub
    didDocument :=
      { context := ["https://www.w3.org/ns/did/v1".data]
        id := did
        verificationMethod :=
          [{ id := vmID
             type := "Ed25519VerificationKey2018".data
             controller := did
             publicKeyBase58 := b58Encode pub }]
        authentication := [vmID]
        assertionMethod := [vmID] } }

/-! ## Identifier codec: resolution (internal/resolver, `Resolver.Resolve`) -/

inductive ResolveErr
  | invalidDID
  | unsupportedMethod
  | invalidMulticodec
  | invalidKeyLength
  | invalidBase58
deriving DecidableEq, Repr

/-- `strings.Split s ":"`: every maximal colon-free run, keeping empty
runs. -/
def splitColon : List Char → List (List Char)
  | [] => [[]]
  | c :: cs =>
    if c = ':' then [] :: splitColon cs
    else
      match splitColon cs with
      | [] => [[c]]
      | p :: ps => (c :: p) :: ps

/-- `Resolver.resolveKey`: strip the 'z' multibase tag, base58-decode,
check the two multicodec bytes, and require exactly 32 remaining key
bytes. -/
def resolveKey (identifier : List Char) : Except ResolveErr (List Nat) :=
  match identifier with
  | [] => .error .invalidDID
  | c :: rest =>
    if c ≠ 'z' then .error .invalidDID
    else
      match b58Decode rest with
      | none => .error .invalidBase58
      | some decoded =>
        if decoded.length < 2 then .error .invalidMulticodec
        else if decoded.getD 0 0 ≠ 0xed ∨ decoded.getD 1 0 ≠ 0x01 then .error .invalidMulticodec
        else if (decoded.drop 2).length ≠ 32 then .error .invalidKeyLength
        else .ok (decoded.drop 2)

/-- `Resolver.Resolve`: split on colons, require at least three parts
with first part "did", dispatch on the method ("key" only). -/
def Resolve (did : List Char) : Except ResolveErr (List Nat) :=
  if (splitColon did).length < 3 then .error .invalidDID
  else if (splitColon did).getD 0 [] ≠ "did".data then .error .invalidDID
  else if (splitColon did).getD 1 [] = "key".data then resolveKey ((splitColon did).getD 2 [])
  else .error .unsupportedMethod

/-! ## Credential subjects (internal/vc, types.go) -/

def CredentialTypeIdentity : String := "IdentityCredential"

def CredentialTypeEducation : String := "EducationCredential"

def CredentialTypeEmployment : String := "EmploymentCredential"

def CredentialTypeMembership : String := "MembershipCredential"

structure IdentitySubject where
  id : String
  givenName : String
  familyName : String
  dateOfBirth : String
  nationality : String
  documentType : String
  documentID : String
  placeOfBirth : String
  gender : String
  address : String
  verifiedAt : String
  verifiedLevel : String
deriving DecidableEq, Repr

structure EducationSubject where
  id : String
  institutionName : String
  institutionDID : String
  degree : String
  fieldOfStudy : String
  graduationDate : String
  certificateName : String
  courseName : String
  completionDate : String
  grade : String
  creditsEarned : Int
deriving DecidableEq, Repr

structure EmploymentSubject where
  id : String
  employerName : String
  employerDID : String
  jobTitle : String
  department : String
  startDate : String
  endDate : String
  employmentType : String
  workLocation : String
  currentEmployee : Bool
deriving DecidableEq, Repr

structure MembershipSubject where
  id : String
  organizationName : String
  organizationDID : String
  membershipID : String
  membershipType : String
  role : String
  roles : List String
  accessLevel : String
  startDate : String
  expirationDate : String
  activeMember : Bool
deriving DecidableEq, Repr

/-- The Go `CredentialSubject` interface with its four implementations,
as a tagged sum. -/
inductive CredentialSubject
  | identity (s : IdentitySubject)
  | education (s : EducationSubject)
  | employment (s : EmploymentSubject)
  | membership (s : MembershipSubject)
deriving DecidableEq, Repr

/-- `CredentialType()` of each subject variant. -/
def CredentialSubject.credentialType : CredentialSubject → String
  | .identity _ => CredentialTypeIdentity
  | .education _ => CredentialTypeEducation
  | .employment _ => CredentialTypeEmployment
  | .membership _ => CredentialTypeMembership

/-- `GetID()` of each subject variant. -/
def CredentialSubject.getID : CredentialSubject → String
  | .identity s => s.id
  | .education s => s.id
  | .employment s => s.id
  | .membership s => s.id

/-! ## Credential and presentation tokens (internal/vc/token.go,
internal/presentation/presentation.go)

The PASETO v4.public token of aidanwoods.dev/go-paseto is modelled as
its claim set plus the public key of the signer; `V4Sign` records that
key and `ParseV4Public` compares it with the supplied verification key
(the symbolic signature model).  `paseto.NewParser()` preloads the
`NotExpired` validation rule, so parsing also rejects a token whose
`exp` claim is in the past. -/

structure CredentialStatus where
  id : String
  type : String
deriving DecidableEq, Repr

structure VerifiableCredential where
  id : String
  type : List String
  credentialSubject : CredentialSubject
  credentialStatus : Option CredentialStatus
deriving DecidableEq, Repr

structure VCClaims where
  issuer : String
  subject : String
  jti : String
  issuedAt : Int
  expiresAt : Int
  vc : VerifiableCredential
deriving DecidableEq, Repr

/-- `VCClaims.GetCredentialID`: the `jti` claim if present, else the
embedded credential id, else empty. -/
def VCClaims.GetCredentialID (c : VCClaims) : String :=
  if c.jti ≠ "" then c.jti
  else if c.vc.id ≠ "" then c.vc.id
  else ""

structure VerifiablePresentation where
  context : List String
  type : List String
  id : String
  holder : String
  verifiableCredential : List String
deriving DecidableEq, Repr

structure VPClaims where
  issuer : String
  subject : String
  audience : String
  nonce : String
  issuedAt : Int
  expiresAt : Int
  vp : VerifiablePresentation
deriving DecidableEq, Repr

/-- The claim set of a PASETO token: registered claims plus the custom
`jti`, `nonce`, `vc` and `vp` claims this code sets.  A field is `none`
when the claim is absent, in which case the corresponding getter
errors. -/
structure PasetoToken where
  issuer : Option String
  subject : Option String
  audience : Option String
  issuedAt : Option Int
  expiration : Option Int
  jti : Option String
  nonce : Option String
  vcClaim : Option VerifiableCredential
  vpClaim : Option VerifiablePresentation
deriving DecidableEq, Repr

/-- A `V4Sign`ed token: the claim set plus the public key matching the
signing private key. -/
structure SignedToken where
  payload : PasetoToken
  signerPub : List Nat
deriving DecidableEq, Repr

/-- `ed25519.PrivateKey.Public`: the public half of the 64-byte private
key is its last 32 bytes. -/
def pubOfPriv (priv : List Nat) : List Nat := priv.drop 32

/-- 365 days, the credential validity window. -/
def yearSeconds : Int := 365 * 24 * 60 * 60

/-- 15 minutes, the presentation validity window. -/
def fifteenMinutes : Int := 15 * 60

inductive TokenErr
  | invalidKeyMaterial
  | signatureInvalid
  | expired
  | missingClaim
  | emptyCredentialSet
  | audienceMismatch
  | nonceMismatch
deriving DecidableEq, Repr

/-- `paseto.NewParser().ParseV4Public(pub, token, nil)`: cryptographic
verification against `pub`, then the parser's default `NotExpired` rule
(reject when `now` is after the `exp` claim; error when `exp` is
absent). -/
def parseV4Public (pub : List Nat) (tok : SignedToken) (now : Int) :
    Except TokenErr PasetoToken :=
  if tok.signerPub ≠ pub then .error .signatureInvalid
  else
    match tok.payload.expiration with
    | none => .error .missingClaim
    | some exp => if now > exp then .error .expired else .ok tok.payload

/-- `IssueVCWithID` (internal/vc/token.go): build the credential payload
(with id and status reference only for a non-empty credential id), the
claim set with `exp = now + 365 days`, and sign with the issuer's
private key.  `paseto.NewV4AsymmetricSecretKeyFromBytes` rejects key
material that is not a 64-byte Ed25519 private key. -/
def IssueVCWithID (issuerDID subjectDID : String) (priv : List Nat)
    (subject : CredentialSubject) (credentialID : String) (now : Int) :
    Except TokenErr SignedToken :=
  if priv.length ≠ 64 then .error .invalidKeyMaterial
  else
    let vc0 : VerifiableCredential :=
      { id := ""
        type := ["VerifiableCredential", subject.credentialType]
        credentialSubject := subject
        credentialStatus := none }
    let vc :=
      if credentialID ≠ "" then
        { vc0 with
            id := credentialID
            credentialStatus := some { id := credentialID, type := "RevocationRegistry2024" } }
      else vc0
    .ok
      { payload :=
          { issuer := some issuerDID
            subject := some subjectDID
            audience := none
            issuedAt := some now
            expiration := some (now + yearSeconds)
            jti := if credentialID ≠ "" then some credentialID else none
            nonce := none
            vcClaim := some vc
            vpClaim := none }
        signerPub := pubOfPriv priv }

/-- `IssueVC`: `IssueVCWithID` with an empty credential id. -/
def IssueVC (issuerDID subjectDID : String) (priv : List Nat)
    (subject : CredentialSubject) (now : Int) : Except TokenErr SignedToken :=
  IssueVCWithID issuerDID subjectDID priv subject "" now

/-- `VerifyVC` (internal/vc/token.go): check the key material, parse the
token with the default parser (signature and `NotExpired` rule), then
extract issuer, subject, issued-at, expiration, the optional `jti` and
the `vc` payload. -/
def VerifyVC (tok : SignedToken) (publicKey : List Nat) (now : Int) :
    Except TokenErr VCClaims :=
  if publicKey.length ≠ 32 then .error .invalidKeyMaterial
  else
    match parseV4Public publicKey tok now with
    | .error e => .error e
    | .ok p =>
      match p.issuer, p.subject, p.issuedAt, p.expiration, p.vcClaim with
      | some iss, some sub, some iat, some exp, some vc =>
        .ok { issuer := iss, subject := sub, jti := p.jti.getD "",
              issuedAt := iat, expiresAt := exp, vc := vc }
      | _, _, _, _, _ => .error .missingClaim

/-- `CreatePresentation` (internal/presentation/presentation.go):
reject an empty credential list, check the key material, and sign the
presentation claims with `exp = now + 15 minutes`.  `presentationID`
stands for the randomly generated `urn:uuid:` identifier. -/
def CreatePresentation (holderDID : String) (priv : List Nat)
    (credentials : List String) (audience nonce presentationID : String)
    (now : Int) : Except TokenErr SignedToken :=
  if credentials.isEmpty then .error .emptyCredentialSet
  else if priv.length ≠ 64 then .error .invalidKeyMaterial
  else
    .ok
      { payload :=
          { issuer := some holderDID
            subject := some holderDID
            audience := some audience
            issuedAt := some now
            expiration := some (now + fifteenMinutes)
            jti := none
            nonce := some nonce
            vcClaim := none
            vpClaim := some
              { context := ["https://www.w3.org/2018/credentials/v1"]
                type := ["VerifiablePresentation"]
                id := presentationID
                holder := holderDID
                verifiableCredential := credentials } }
        signerPub := pubOfPriv priv }

/-- `VerifyPresentation`: parse with the default parser, require the
registered claims and the `nonce` claim, compare audience and nonce
against the expected values when those are non-empty, reject an expired
token, and return the claims with the embedded credential tokens. -/
def VerifyPresentation (tok : SignedToken) (holderPublicKey : List Nat)
    (expectedAudience expectedNonce : String) (now : Int) :
    Except TokenErr VPClaims :=
  if holderPublicKey.length ≠ 32 then .error .invalidKeyMaterial
  else
    match parseV4Public holderPublicKey tok now with
    | .error e => .error e
    | .ok p =>
      match p.issuer, p.subject, p.audience, p.issuedAt, p.expiration, p.nonce with
      | some iss, some sub, some aud, some iat, some exp, some nonce =>
        if expectedAudience ≠ "" ∧ aud ≠ expectedAudience then .error .audienceMismatch
        else if expectedNonce ≠ "" ∧ nonce ≠ expectedNonce then .error .nonceMismatch
        else if now > exp then .error .expired
        else
          match p.vpClaim with
          | none => .error .missingClaim
          | some vp =>
            .ok { issuer := iss, subject := sub, audience := aud, nonce := nonce,
                  issuedAt := iat, expiresAt := exp, vp := vp }
      | _, _, _, _, _, _ => .error .missingClaim

/-! ## Revocation registry (internal/revocation/registry.go)

`Registry.entries` is a Go `map[string]*Entry`; the model keeps the
pointed-to entries in an explicit heap and the map as an association
list from credential id to heap location, so that the aliasing of
returned `*Entry` pointers is visible.  Persistence (`save`) is the
in-memory no-op of a registry constructed without a file path. -/

inductive Status
  | active
  | revoked
deriving DecidableEq, Repr

structure Entry where
  credentialID : String
  issuerDID : String
  subjectDID : String
  status : Status
  issuedAt : Int
  revokedAt : Int
  reason : String
deriving DecidableEq, Repr

/-- Zero value used when dereferencing out of the heap. -/
def defaultEntry : Entry :=
  { credentialID := "", issuerDID := "", subjectDID := "",
    status := .active, issuedAt := 0, revokedAt := 0, reason := "" }

structure Registry where
  heap : List Entry
  entries : List (String × Nat)
deriving DecidableEq, Repr

/-- `NewRegistry`: the empty in-memory registry. -/
def emptyRegistry : Registry := { heap := [], entries := [] }

/-- Dereference of an entry pointer. -/
def entryAt (s : Registry) (loc : Nat) : Entry := s.heap.getD loc defaultEntry

/-- Map lookup `r.entries[id]`. -/
def lookupEntry : List (String × Nat) → String → Option Nat
  | [], _ => none
  | (k, v) :: rest, id => if k = id then some v else lookupEntry rest id

/-- Map store `r.entries[id] = loc`: replace the existing binding or add
a new one. -/
def insertEntry : List (String × Nat) → String → Nat → List (String × Nat)
  | [], id, loc => [(id, loc)]
  | (k, v) :: rest, id, loc =>
    if k = id then (id, loc) :: rest else (k, v) :: insertEntry rest id loc

inductive RevErr
  | notFound
  | alreadyRevoked
deriving DecidableEq, Repr

/-- `Registry.Register`: allocate a fresh Active entry with
`issuedAt = now` and bind the credential id to it, silently overwriting
any existing binding. -/
def Register (s : Registry) (credentialID issuerDID subjectDID : String)
    (now : Int) : Registry :=
  { heap := s.heap ++
      [{ credentialID := credentialID, issuerDID := issuerDID,
         subjectDID := subjectDID, status := .active,
         issuedAt := now, revokedAt := 0, reason := "" }]
    entries := insertEntry s.entries credentialID s.heap.length }

/-- `Registry.Revoke`: `ErrCredentialNotFound` when the id is unbound,
`ErrAlreadyRevoked` when the entry is already revoked, otherwise mutate
the entry in place to Revoked with `revokedAt = now` and the reason. -/
def Revoke (s : Registry) (credentialID reason : String) (now : Int) :
    Registry × Option RevErr :=
  match lookupEntry s.entries credentialID with
  | none => (s, some .notFound)
  | some loc =>
    let e := entryAt s loc
    if e.status = .revoked then (s, some .alreadyRevoked)
    else
      ({ s with heap := s.heap.set loc { e with status := .revoked, revokedAt := now, reason := reason } },
       none)

/-- `Registry.CheckStatus`: `ErrCredentialNotFound` when the id is
unbound, otherwise the stored `*Entry` pointer (a heap location here). -/
def CheckStatus (s : Registry) (credentialID : String) : Except RevErr Nat :=
  match lookupEntry s.entries credentialID with
  | none => .error .notFound
  | some loc => .ok loc

/-- `Registry.IsRevoked`: `CheckStatus` then a status comparison. -/
def IsRevoked (s : Registry) (credentialID : String) : Except RevErr Bool :=
  match CheckStatus s credentialID with
  | .error e => .error e
  | .ok loc => .ok (decide ((entryAt s loc).status = .revoked))

/-- `Registry.ListByIssuer`: linear scan over the map's entries. -/
def ListByIssuer (s : Registry) (issuerDID : String) : List Entry :=
  (s.entries.map (fun p => entryAt s p.2)).filter (fun e => e.issuerDID == issuerDID)

/-- `Registry.ListBySubject`: linear scan over the map's entries. -/
def ListBySubject (s : Registry) (subjectDID : String) : List Entry :=
  (s.entries.map (fun p => entryAt s p.2)).filter (fun e => e.subjectDID == subjectDID)

/-- Status currently stored under a credential id, as observed through
`CheckStatus`. -/
def statusOf (s : Registry) (id : String) : Option Status :=
  (lookupEntry s.entries id).map (fun loc => (entryAt s loc).status)

/-- A caller writing `entry.Status = st` through an `*Entry` returned by
`CheckStatus`: an in-place update of the pointed-to heap entry. -/
def writeStatusAt (s : Registry) (loc : Nat) (st : Status) : Registry :=
  { s with heap := s.heap.set loc { entryAt s loc with status := st } }

/-- One registry API call, for reasoning about operation sequences. -/
inductive RegOp
  | register (id issuer subject : String) (now : Int)
  | revoke (id reason : String) (now : Int)
  | checkStatus (id : String)
  | isRevoked (id : String)
  | listByIssuer (issuer : String)
  | listBySubject (subject : String)
deriving DecidableEq, Repr

/-- Effect of one registry call on the registry state; the read-only
calls leave it unchanged. -/
def runOp (s : Registry) : RegOp → Registry
  | .register id issuer subject now => Register s id issuer subject now
  | .revoke id reason now => (Revoke s id reason now).1
  | .checkStatus _ => s
  | .isRevoked _ => s
  | .listByIssuer _ => s
  | .listBySubject _ => s

/-- Effect of a sequence of registry calls. -/
def runOps (s : Registry) (ops : List RegOp) : Registry := ops.foldl runOp s

/-- Whether an operation is a `Register` of the given credential id. -/
def isRegisterOf (id : String) : RegOp → Bool
  | .register i _ _ _ => i == id
  | _ => false

/-- Well-formedness of the pointer structure: every binding points into
the heap, and distinct credential ids are bound to distinct entries
(every `Register` allocates a fresh one).  Holds for every state
reachable from the empty registry. -/
def RegWF (s : Registry) : Prop :=
  (∀ p ∈ s.entries, p.2 < s.heap.length) ∧
  (∀ p ∈ s.entries, ∀ q ∈ s.entries, p.2 = q.2 → p.1 = q.1)

/-- Identity invariant: the entry stored under a credential id always
carries exactly that id in its `credentialID` field. -/
def IdsMatch (s : Registry) : Prop :=
  ∀ p ∈ s.entries, (entryAt s p.2).credentialID = p.1

/-- Sample credential subject used in concrete instances. -/
def sampleIdentity : IdentitySubject :=
  { id := "did:key:zSubject", givenName := "Alice", familyName := "Doe",
    dateOfBirth := "1990-01-01", nationality := "", documentType := "",
    documentID := "", placeOfBirth := "", gender := "", address := "",
    verifiedAt := "", verifiedLevel := "" }

/-! ## Lemmas: base58 round trip -/

theorem beVal_go (b : Nat) (l : List Nat) (acc : Nat) :
    l.foldl (fun a d => a * b + d) acc = acc * b ^ l.length + Nat.ofDigits b l.reverse := by
  induction l generalizing acc with
  | nil => simp
  | cons d tl ih =>
    simp only [List.foldl_cons, List.reverse_cons, ih, Nat.ofDigits_append,
      List.length_reverse, List.length_cons, Nat.ofDigits_cons, Nat.ofDigits_nil]
    ring

theorem beVal_eq_ofDigits (b : Nat) (l : List Nat) :
    beVal b l = Nat.ofDigits b l.reverse := by
  simpa [beVal] using beVal_go b l 0

theorem digitsLEAux_eq {b : Nat} (hb : 1 < b) :
    ∀ fuel n, n ≤ fuel → digitsLEAux b fuel n = Nat.digits b n := by
  intro fuel
  induction fuel with
  | zero =>
    intro n hn
    have : n = 0 := Nat.le_zero.1 hn
    subst this
    simp [digitsLEAux]
  | succ f ih =>
    intro n hn
    by_cases h0 : n = 0
    · subst h0; simp [digitsLEAux]
    · have hdiv : n / b ≤ f := by
        have h1 : n / b < n := Nat.div_lt_self (Nat.pos_of_ne_zero h0) hb
        omega
      simp only [digitsLEAux, if_neg h0, ih _ hdiv]
      rw [Nat.digits_def' hb (Nat.pos_of_ne_zero h0)]

theorem digitsLE_eq {b : Nat} (hb : 1 < b) (n : Nat) :
    digitsLE b n = Nat.digits b n :=
  digitsLEAux_eq hb n n le_rfl

set_option maxRecDepth 4000 in
theorem charTo58_b58Char_aux : ∀ d ∈ List.range 58, charTo58 (b58Char d) = some d := by
  decide

theorem charTo58_b58Char {d : Nat} (h : d < 58) : charTo58 (b58Char d) = some d :=
  charTo58_b58Char_aux d (List.mem_range.mpr h)

theorem b58Char_ne_colon {d : Nat} (h : d < 58) : b58Char d ≠ ':' := by
  intro he
  have h1 := charTo58_b58Char h
  rw [he] at h1
  have h2 : charTo58 ':' = none := by decide
  rw [h2] at h1
  exact Option.noConfusion h1

theorem b58Char_ne_one {d : Nat} (h : d < 58) (hd : d ≠ 0) : b58Char d ≠ '1' := by
  intro he
  have h1 := charTo58_b58Char h
  rw [he] at h1
  have h2 : charTo58 '1' = some 0 := by decide
  rw [h2] at h1
  exact hd (Option.some.injEq _ _ ▸ h1).symm

theorem colon_not_mem_b58Encode (bs : List Nat) : ':' ∉ b58Encode bs := by
  intro hmem
  rcases List.mem_append.1 hmem with h | h
  · exact absurd (List.eq_of_mem_replicate h) (by decide)
  · rcases List.mem_map.1 h with ⟨d, hd, he⟩
    have hd58 : d < 58 := by
      have hmem' : d ∈ Nat.digits 58 (beVal 256 bs) := by
        rw [← digitsLE_eq (by norm_num)]
        exact List.mem_reverse.1 hd
      exact Nat.digits_lt_base (by norm_num) hmem'
    exact b58Char_ne_colon hd58 he

theorem charsTo58_map : ∀ (l : List Nat), (∀ d ∈ l, d < 58) →
    charsTo58 (l.map b58Char) = some l := by
  intro l
  induction l with
  | nil => intro _; rfl
  | cons d tl ih =>
    intro h
    have hd := h d (List.mem_cons_self _ _)
    have htl := ih fun x hx => h x (List.mem_cons_of_mem _ hx)
    simp only [List.map_cons, charsTo58, charTo58_b58Char hd, htl]

theorem b58_roundtrip_head {b : Nat} {tl : List Nat} (hb : b ≠ 0)
    (hlt : ∀ x ∈ b :: tl, x < 256) :
    b58Decode (b58Encode (b :: tl)) = some (b :: tl) := by
  have h256 : (1 : Nat) < 256 := by norm_num
  have h58 : (1 : Nat) < 58 := by norm_num
  set bs := b :: tl with hbs
  set n := beVal 256 bs with hn
  have hrevlt : ∀ x ∈ bs.reverse, x < 256 := fun x hx => hlt x (List.mem_reverse.1 hx)
  have hrevne : bs.reverse ≠ [] := by simp [hbs]
  have hrevlast : ∀ (h : bs.reverse ≠ []), bs.reverse.getLast h ≠ 0 := by
    intro h
    have h1 : bs.reverse.getLast? = some (bs.reverse.getLast h) := List.getLast?_eq_getLast _ h
    rw [List.getLast?_reverse] at h1
    have h2 : bs.head? = some b := by rw [hbs]; rfl
    rw [h2] at h1
    have h3 : bs.reverse.getLast h = b := (Option.some.injEq _ _ ▸ h1).symm
    rw [h3]
    exact hb
  have hdig : Nat.digits 256 n = bs.reverse := by
    rw [hn, beVal_eq_ofDigits]
    exact Nat.digits_ofDigits 256 h256 bs.reverse hrevlt hrevlast
  have hn0 : n ≠ 0 := by
    intro h0
    have h1 : Nat.digits 256 n = [] := by rw [h0]; simp
    rw [hdig] at h1
    exact hrevne h1
  have hlz : leadingZeroBytes bs = 0 := by simp [hbs, leadingZeroBytes, hb]
  have henc : b58Encode bs = (Nat.digits 58 n).reverse.map b58Char := by
    simp [b58Encode, hlz, digitsLE_eq h58, hn]
  have hd58 : ∀ d ∈ (Nat.digits 58 n).reverse, d < 58 := fun d hd =>
    Nat.digits_lt_base h58 (List.mem_reverse.1 hd)
  have hchars : charsTo58 ((Nat.digits 58 n).reverse.map b58Char)
      = some (Nat.digits 58 n).reverse := charsTo58_map _ hd58
  have hne : Nat.digits 58 n ≠ [] := Nat.digits_ne_nil_iff_ne_zero.2 hn0
  obtain ⟨d0, ds, hcons⟩ : ∃ d0 ds, (Nat.digits 58 n).reverse = d0 :: ds := by
    cases hr : (Nat.digits 58 n).reverse with
    | nil => exact absurd (List.reverse_eq_nil_iff.1 hr) hne
    | cons d0 ds => exact ⟨d0, ds, rfl⟩
  have hd0 : d0 ≠ 0 := by
    have hlast : (Nat.digits 58 n).getLast hne ≠ 0 := Nat.getLast_digit_ne_zero 58 hn0
    have h1 : (Nat.digits 58 n).reverse.head? = some d0 := by rw [hcons]; rfl
    rw [List.head?_reverse] at h1
    have h2 : (Nat.digits 58 n).getLast? = some ((Nat.digits 58 n).getLast hne) :=
      List.getLast?_eq_getLast _ hne
    rw [h1] at h2
    have h3 : d0 = (Nat.digits 58 n).getLast hne := Option.some.injEq _ _ ▸ h2
    rw [h3]
    exact hlast
  have hd0lt : d0 < 58 := hd58 d0 (by rw [hcons]; exact List.mem_cons_self _ _)
  have hlead : leadingOneChars ((Nat.digits 58 n).reverse.map b58Char) = 0 := by
    rw [hcons, List.map_cons]
    simp [leadingOneChars, b58Char_ne_one hd0lt hd0]
  have hbeval : beVal 58 (Nat.digits 58 n).reverse = n := by
    rw [beVal_eq_ofDigits, List.reverse_reverse, Nat.ofDigits_digits]
  rw [henc]
  unfold b58Decode
  rw [hchars]
  simp only [hlead, hbeval, digitsLE_eq h256, hdig, List.reverse_reverse,
    List.replicate, List.nil_append]

theorem b58_roundtrip (bs : List Nat) (h : ∀ x ∈ bs, x < 256) :
    b58Decode (b58Encode bs) = some bs := by
  induction bs with
  | nil => rfl
  | cons b tl ih =>
    by_cases hb : b = 0
    · subst hb
      have ih' := ih fun x hx => h x (List.mem_cons_of_mem _ hx)
      have henc : b58Encode (0 :: tl) = '1' :: b58Encode tl := by
        have hz : leadingZeroBytes (0 :: tl) = leadingZeroBytes tl + 1 := by
          simp [leadingZeroBytes]
        have hv : beVal 256 (0 :: tl) = beVal 256 tl := by
          simp [beVal]
        simp [b58Encode, hz, hv, List.replicate_succ]
      rw [henc]
      unfold b58Decode at ih' ⊢
      cases hc : charsTo58 (b58Encode tl) with
      | none => rw [hc] at ih'; exact absurd ih' (by simp)
      | some ds =>
        rw [hc] at ih'
        simp only [Option.some.injEq] at ih'
        have h1 : charsTo58 ('1' :: b58Encode tl) = some (0 :: ds) := by
          have hone : charTo58 '1' = some 0 := by decide
          simp only [charsTo58, hone, hc]
        rw [h1]
        have h2 : leadingOneChars ('1' :: b58Encode tl)
            = leadingOneChars (b58Encode tl) + 1 := by
          simp [leadingOneChars]
        have h3 : beVal 58 (0 :: ds) = beVal 58 ds := by
          simp [beVal]
        simp only [h2, h3, List.replicate_succ, List.cons_append, Option.some.injEq]
        exact congrArg (0 :: ·) ih'
    · exact b58_roundtrip_head hb h

/-! ## Lemmas: colon splitting and key resolution -/

theorem splitColon_ne_nil (l : List Char) : splitColon l ≠ [] := by
  induction l with
  | nil => simp [splitColon]
  | cons c cs ih =>
    by_cases hc : c = ':'
    · simp [splitColon, hc]
    · cases hs : splitColon cs with
      | nil => exact absurd hs ih
      | cons p ps => simp [splitColon, hc, hs]

theorem splitColon_no_colon {l : List Char} (h : ':' ∉ l) : splitColon l = [l] := by
  induction l with
  | nil => rfl
  | cons c cs ih =>
    have hc : c ≠ ':' := fun he => h (he ▸ List.mem_cons_self _ _)
    have ih' := ih fun hm => h (List.mem_cons_of_mem _ hm)
    simp [splitColon, hc, ih']

theorem splitColon_append {a : List Char} (rest : List Char) (h : ':' ∉ a) :
    splitColon (a ++ ':' :: rest) = a :: splitColon rest := by
  induction a with
  | nil => simp [splitColon]
  | cons c cs ih =>
    have hc : c ≠ ':' := fun he => h (he ▸ List.mem_cons_self _ _)
    have ih' := ih fun hm => h (List.mem_cons_of_mem _ hm)
    simp [splitColon, hc, ih']

theorem splitColon_didkey (mid : List Char) :
    splitColon ("did:key:".data ++ mid) = "did".data :: "key".data :: splitColon mid := by
  have e : "did:key:".data ++ mid = "did".data ++ ':' :: ("key".data ++ ':' :: mid) := rfl
  rw [e, splitColon_append _ (by decide), splitColon_append _ (by decide)]

theorem Resolve_eq_resolveKey {did : List Char}
    (h3 : 3 ≤ (splitColon did).length)
    (h0 : (splitColon did).getD 0 [] = "did".data)
    (h1 : (splitColon did).getD 1 [] = "key".data) :
    Resolve did = resolveKey ((splitColon did).getD 2 []) := by
  unfold Resolve
  rw [if_neg (by omega), if_neg (fun hne => hne h0), if_pos h1]

theorem resolveKey_not_z {mid : List Char} (h : mid.headD ' ' ≠ 'z') :
    resolveKey mid = .error .invalidDID := by
  cases mid with
  | nil => rfl
  | cons c t =>
    have hc : c ≠ 'z' := by simpa using h
    simp [resolveKey, hc]

theorem resolveKey_badb58 {mid : List Char} (hz : mid.headD ' ' = 'z')
    (hd : b58Decode mid.tail = none) : resolveKey mid = .error .invalidBase58 := by
  cases mid with
  | nil => exact absurd hz (by decide)
  | cons c t =>
    have hc : c = 'z' := by simpa using hz
    simp only [List.tail_cons] at hd
    simp [resolveKey, hc, hd]

theorem resolveKey_badcodec {mid : List Char} {d : List Nat} (hz : mid.headD ' ' = 'z')
    (hd : b58Decode mid.tail = some d)
    (hbad : d.length < 2 ∨ d.getD 0 0 ≠ 0xed ∨ d.getD 1 0 ≠ 0x01) :
    resolveKey mid = .error .invalidMulticodec := by
  cases mid with
  | nil => exact absurd hz (by decide)
  | cons c t =>
    have hc : c = 'z' := by simpa using hz
    simp only [List.tail_cons] at hd
    by_cases hl : d.length < 2
    · simp [resolveKey, hc, hd, hl]
    · have hb : d.getD 0 0 ≠ 0xed ∨ d.getD 1 0 ≠ 0x01 := by
        rcases hbad with h | h | h
        · exact absurd h hl
        · exact Or.inl h
        · exact Or.inr h
      simp only [List.getD_eq_getElem?_getD] at hb
      simp [resolveKey, hc, hd, hl, hb]

theorem length_ge_two_of_tag {d : List Nat} (h1 : d.getD 1 0 = 0x01) : 2 ≤ d.length := by
  by_contra h
  have hle : d.length ≤ 1 := by omega
  rw [List.getD_eq_default _ _ hle] at h1
  exact absurd h1 (by decide)

theorem resolveKey_badlen {mid : List Char} {d : List Nat} (hz : mid.headD ' ' = 'z')
    (hd : b58Decode mid.tail = some d)
    (h0 : d.getD 0 0 = 0xed) (h1 : d.getD 1 0 = 0x01)
    (hL : (d.drop 2).length ≠ 32) : resolveKey mid = .error .invalidKeyLength := by
  cases mid with
  | nil => exact absurd hz (by decide)
  | cons c t =>
    have hc : c = 'z' := by simpa using hz
    simp only [List.tail_cons] at hd
    have hl : ¬d.length < 2 := by have := length_ge_two_of_tag h1; omega
    have hL' : d.length - 2 ≠ 32 := by
      have := List.length_drop 2 d
      omega
    simp only [List.getD_eq_getElem?_getD] at h0 h1
    simp [resolveKey, hc, hd, hl, h0, h1, hL']

theorem resolveKey_success {mid : List Char} {d : List Nat} (hz : mid.headD ' ' = 'z')
    (hd : b58Decode mid.tail = some d)
    (h0 : d.getD 0 0 = 0xed) (h1 : d.getD 1 0 = 0x01)
    (hL : (d.drop 2).length = 32) : resolveKey mid = .ok (d.drop 2) := by
  cases mid with
  | nil => exact absurd hz (by decide)
  | cons c t =>
    have hc : c = 'z' := by simpa using hz
    simp only [List.tail_cons] at hd
    have hl : ¬d.length < 2 := by have := length_ge_two_of_tag h1; omega
    simp only [List.getD_eq_getElem?_getD] at h0 h1
    simp [resolveKey, hc, hd, hl, h0, h1, hL]

theorem resolveKey_of_decode {mid : List Char} {k : List Nat}
    (hz : mid.headD ' ' = 'z') (hdec : b58Decode mid.tail = some (0xed :: 0x01 :: k))
    (hlen : k.length = 32) : resolveKey mid = .ok k := by
  have h := resolveKey_success hz hdec (d := 0xed :: 0x01 :: k) rfl rfl
    (by simpa using hlen)
  simpa using h

theorem colon_not_mem_encoded (bs : List Nat) : ':' ∉ 'z' :: b58Encode bs := by
  intro hmem
  rcases List.mem_cons.1 hmem with h | h
  · exact absurd h (by decide)
  · exact colon_not_mem_b58Encode bs h

/-- C4: for every valid 32-byte Ed25519 public key `k`, `CreateDIDKey`
succeeds and produces the identifier `did:key:z<base58btc(0xED 0x01 ‖ k)>`,
and `Resolve` applied to that identifier succeeds and returns exactly the
32 bytes of `k`. -/
theorem didkey_roundtrip (k : List Nat) (hlen : k.length = 32)
    (hb : ∀ b ∈ k, b < 256) :
    (CreateDIDKey k).did = "did:key:z".data ++ b58Encode (0xed :: 0x01 :: k) ∧
    Resolve (CreateDIDKey k).did = .ok k := by
  have hdid : (CreateDIDKey k).did
      = "did:key:".data ++ ('z' :: b58Encode (0xed :: 0x01 :: k)) := rfl
  have hmemk : ∀ x ∈ (0xed : Nat) :: 0x01 :: k, x < 256 := by
    intro x hx
    rcases List.mem_cons.1 hx with h | hx
    · subst h; norm_num
    rcases List.mem_cons.1 hx with h | hx
    · subst h; norm_num
    · exact hb x hx
  have hdec : b58Decode (b58Encode (0xed :: 0x01 :: k)) = some (0xed :: 0x01 :: k) :=
    b58_roundtrip _ hmemk
  have hsplit : splitColon ("did:key:".data ++ ('z' :: b58Encode (0xed :: 0x01 :: k)))
      = ["did".data, "key".data, 'z' :: b58Encode (0xed :: 0x01 :: k)] := by
    rw [splitColon_didkey, splitColon_no_colon (colon_not_mem_encoded _)]
  refine ⟨by rw [hdid]; rfl, ?_⟩
  rw [hdid]
  rw [Resolve_eq_resolveKey (by rw [hsplit]; simp) (by rw [hsplit]; rfl)
      (by rw [hsplit]; rfl)]
  rw [hsplit]
  simp only [List.getD_cons_succ, List.getD_cons_zero]
  exact resolveKey_of_decode rfl hdec hlen

/-- C4 witness at a concrete 32-byte key. -/
theorem didkey_roundtrip_witness :
    (CreateDIDKey (List.replicate 32 7)).did
        = "did:key:z".data ++ b58Encode (0xed :: 0x01 :: List.replicate 32 7) ∧
      Resolve (CreateDIDKey (List.replicate 32 7)).did = .ok (List.replicate 32 7) :=
  didkey_roundtrip (List.replicate 32 7) (by decide)
    (fun b hb => by rw [List.eq_of_mem_replicate hb]; norm_num)

/-- C7: exhaustive error taxonomy of `Resolve`: `invalidDID` for fewer
than three colon-delimited parts or a first part other than "did";
`unsupportedMethod` for a method other than "key"; for method "key",
`invalidDID` when the method-id does not start with 'z', a base58 error
on a malformed encoding, `invalidMulticodec` when the decoded bytes do
not start with 0xED 0x01, `invalidKeyLength` when the remainder is not
exactly 32 bytes, and success with the 32 raw key bytes otherwise. -/
theorem resolve_error_taxonomy (did : List Char) :
    ((splitColon did).length < 3 ∨ (splitColon did).getD 0 [] ≠ "did".data →
      Resolve did = .error .invalidDID) ∧
    (3 ≤ (splitColon did).length → (splitColon did).getD 0 [] = "did".data →
      (splitColon did).getD 1 [] ≠ "key".data →
      Resolve did = .error .unsupportedMethod) ∧
    (3 ≤ (splitColon did).length → (splitColon did).getD 0 [] = "did".data →
      (splitColon did).getD 1 [] = "key".data →
      (((splitColon did).getD 2 []).headD ' ' ≠ 'z' → Resolve did = .error .invalidDID) ∧
      (((splitColon did).getD 2 []).headD ' ' = 'z' →
        (b58Decode ((splitColon did).getD 2 []).tail = none →
          Resolve did = .error .invalidBase58) ∧
        ∀ d, b58Decode ((splitColon did).getD 2 []).tail = some d →
          (d.length < 2 ∨ d.getD 0 0 ≠ 0xed ∨ d.getD 1 0 ≠ 0x01 →
            Resolve did = .error .invalidMulticodec) ∧
          (d.getD 0 0 = 0xed → d.getD 1 0 = 0x01 → (d.drop 2).length ≠ 32 →
            Resolve did = .error .invalidKeyLength) ∧
          (d.getD 0 0 = 0xed → d.getD 1 0 = 0x01 → (d.drop 2).length = 32 →
            Resolve did = .ok (d.drop 2)))) := by
  refine ⟨?_, ?_, ?_⟩
  · intro h
    unfold Resolve
    rcases h with h | h
    · rw [if_pos h]
    · by_cases hl : (splitColon did).length < 3
      · rw [if_pos hl]
      · rw [if_neg hl, if_pos h]
  · intro h3 h0 h1
    unfold Resolve
    rw [if_neg (by omega), if_neg (fun hne => hne h0), if_neg h1]
  · intro h3 h0 h1
    have hR := Resolve_eq_resolveKey h3 h0 h1
    refine ⟨fun hz => ?_,
            fun hz => ⟨fun hd => ?_,
              fun d hd => ⟨fun hbad => ?_, fun he0 he1 hL => ?_, fun he0 he1 hL => ?_⟩⟩⟩
    · rw [hR]; exact resolveKey_not_z hz
    · rw [hR]; exact resolveKey_badb58 hz hd
    · rw [hR]; exact resolveKey_badcodec hz hd hbad
    · rw [hR]; exact resolveKey_badlen hz hd he0 he1 hL
    · rw [hR]; exact resolveKey_success hz hd he0 he1 hL

/-- C7 witness at three concrete identifiers, one per leading branch. -/
theorem resolve_error_taxonomy_witness :
    Resolve "notadid".data = .error .invalidDID ∧
    Resolve "did:web:example".data = .error .unsupportedMethod ∧
    Resolve "did:key:6Mk".data = .error .invalidDID :=
  ⟨(resolve_error_taxonomy ("notadid".data)).1 (Or.inl (by decide)),
   (resolve_error_taxonomy ("did:web:example".data)).2.1 (by decide) (by decide) (by decide),
   ((resolve_error_taxonomy ("did:key:6Mk".data)).2.2 (by decide) (by decide) (by decide)).1
     (by decide)⟩

/-- C9: an identifier with more than three colon-delimited parts whose
first three parts are "did", "key" and a valid 'z'-prefixed base58
encoding of the Ed25519 tag plus a 32-byte key resolves successfully
using only the third part; everything after it is ignored. -/
theorem resolve_ignores_extra_parts (mid rest : List Char) (k : List Nat)
    (hnc : ':' ∉ mid) (hz : mid.headD ' ' = 'z')
    (hdec : b58Decode mid.tail = some (0xed :: 0x01 :: k)) (hlen : k.length = 32) :
    3 < (splitColon ("did:key:".data ++ (mid ++ ':' :: rest))).length ∧
    Resolve ("did:key:".data ++ (mid ++ ':' :: rest)) = .ok k := by
  have hsplit : splitColon ("did:key:".data ++ (mid ++ ':' :: rest))
      = "did".data :: "key".data :: mid :: splitColon rest := by
    rw [splitColon_didkey, splitColon_append _ hnc]
  have hpos : 0 < (splitColon rest).length := List.length_pos.2 (splitColon_ne_nil rest)
  constructor
  · rw [hsplit]
    simp only [List.length_cons]
    omega
  · rw [Resolve_eq_resolveKey (by rw [hsplit]; simp only [List.length_cons]; omega)
        (by rw [hsplit]; rfl) (by rw [hsplit]; rfl)]
    rw [hsplit]
    simp only [List.getD_cons_succ, List.getD_cons_zero]
    exact resolveKey_of_decode hz hdec hlen

/-- C9 witness: a concrete valid did:key identifier with a fourth part. -/
theorem resolve_ignores_extra_parts_witness :
    3 < (splitColon ("did:key:".data ++
        (('z' :: b58Encode (0xed :: 0x01 :: List.replicate 32 7)) ++ ':' :: "extra".data))).length ∧
    Resolve ("did:key:".data ++
        (('z' :: b58Encode (0xed :: 0x01 :: List.replicate 32 7)) ++ ':' :: "extra".data))
      = .ok (List.replicate 32 7) :=
  resolve_ignores_extra_parts _ _ _ (colon_not_mem_encoded _) rfl
    (b58_roundtrip _ (by decide)) (by decide)

/-! ## Lemmas: registry map and heap -/

theorem lookupEntry_mem {m : List (String × Nat)} {id : String} {loc : Nat}
    (h : lookupEntry m id = some loc) : (id, loc) ∈ m := by
  induction m with
  | nil => simp [lookupEntry] at h
  | cons p rest ih =>
    obtain ⟨k, v⟩ := p
    by_cases hk : k = id
    · subst hk
      simp [lookupEntry] at h
      subst h
      exact List.mem_cons_self _ _
    · simp [lookupEntry, hk] at h
      exact List.mem_cons_of_mem _ (ih h)

theorem lookupEntry_insert_self (m : List (String × Nat)) (id : String) (loc : Nat) :
    lookupEntry (insertEntry m id loc) id = some loc := by
  induction m with
  | nil => simp [insertEntry, lookupEntry]
  | cons p rest ih =>
    obtain ⟨k, v⟩ := p
    by_cases hk : k = id
    · simp [insertEntry, hk, lookupEntry]
    · simp [insertEntry, hk, lookupEntry, ih]

theorem lookupEntry_insert_ne (m : List (String × Nat)) (id : String) (loc : Nat)
    {id' : String} (h : id' ≠ id) :
    lookupEntry (insertEntry m id loc) id' = lookupEntry m id' := by
  induction m with
  | nil =>
    simp only [insertEntry, lookupEntry]
    rw [if_neg (Ne.symm h)]
  | cons p rest ih =>
    obtain ⟨k, v⟩ := p
    by_cases hk : k = id
    · subst hk
      simp only [insertEntry, if_pos rfl, lookupEntry]
      rw [if_neg (fun he => h he.symm), if_neg (fun he => h he.symm)]
    · simp only [insertEntry, if_neg hk, lookupEntry, ih]

theorem mem_insertEntry {m : List (String × Nat)} {id : String} {loc : Nat}
    {p : String × Nat} (h : p ∈ insertEntry m id loc) : p = (id, loc) ∨ p ∈ m := by
  induction m with
  | nil =>
    simp [insertEntry] at h
    exact Or.inl h
  | cons q rest ih =>
    obtain ⟨k, v⟩ := q
    by_cases hk : k = id
    · simp only [insertEntry, if_pos hk, List.mem_cons] at h
      rcases h with h | h
      · exact Or.inl h
      · exact Or.inr (List.mem_cons_of_mem _ h)
    · simp only [insertEntry, if_neg hk, List.mem_cons] at h
      rcases h with h | h
      · exact Or.inr (h ▸ List.mem_cons_self _ _)
      · rcases ih h with h' | h'
        · exact Or.inl h'
        · exact Or.inr (List.mem_cons_of_mem _ h')

theorem getD_append_lt {α : Type} {l : List α} {a : α} {i : Nat}
    (h : i < l.length) (d : α) : (l ++ [a]).getD i d = l.getD i d := by
  rw [List.getD_eq_getElem?_getD, List.getD_eq_getElem?_getD, List.getElem?_append]
  rw [if_pos h]

theorem getD_append_self {α : Type} (l : List α) (a : α) (d : α) :
    (l ++ [a]).getD l.length d = a := by
  rw [List.getD_eq_getElem?_getD, List.getElem?_concat_length]
  rfl

theorem getD_set_ne {α : Type} {l : List α} {i j : Nat} (h : i ≠ j) (a d : α) :
    (l.set i a).getD j d = l.getD j d := by
  rw [List.getD_eq_getElem?_getD, List.getD_eq_getElem?_getD, List.getElem?_set_ne h]

theorem getD_set_self {α : Type} {l : List α} {i : Nat} (h : i < l.length) (a d : α) :
    (l.set i a).getD i d = a := by
  rw [List.getD_eq_getElem?_getD, List.getElem?_set_self h]
  rfl

theorem Revoke_entries (s : Registry) (id reason : String) (now : Int) :
    (Revoke s id reason now).1.entries = s.entries := by
  unfold Revoke
  cases lookupEntry s.entries id with
  | none => rfl
  | some loc =>
    by_cases h : (entryAt s loc).status = .revoked
    · simp [h]
    · simp [h]

theorem Revoke_heap_length (s : Registry) (id reason : String) (now : Int) :
    (Revoke s id reason now).1.heap.length = s.heap.length := by
  unfold Revoke
  cases lookupEntry s.entries id with
  | none => rfl
  | some loc =>
    by_cases h : (entryAt s loc).status = .revoked
    · simp [h]
    · simp [h, List.length_set]

theorem regWF_of_eq {s t : Registry} (he : t.entries = s.entries)
    (hl : t.heap.length = s.heap.length) (hwf : RegWF s) : RegWF t := by
  unfold RegWF
  rw [he, hl]
  exact hwf

theorem regWF_empty : RegWF emptyRegistry := by
  constructor
  · intro p hp
    simp [emptyRegistry] at hp
  · intro p hp
    simp [emptyRegistry] at hp

theorem regWF_register {s : Registry} (hwf : RegWF s) (id iss sub : String) (now : Int) :
    RegWF (Register s id iss sub now) := by
  obtain ⟨h1, h2⟩ := hwf
  constructor
  · intro p hp
    rcases mem_insertEntry hp with h | h
    · subst h
      simp [Register, List.length_append]
    · have := h1 p h
      simp only [Register, List.length_append, List.length_cons, List.length_nil]
      omega
  · intro p hp q hq heq
    rcases mem_insertEntry hp with h | h <;> rcases mem_insertEntry hq with h' | h'
    · rw [h, h']
    · exfalso
      have hq2 : q.2 < s.heap.length := h1 q h'
      rw [h] at heq
      simp at heq
      omega
    · exfalso
      have hp2 : p.2 < s.heap.length := h1 p h
      rw [h'] at heq
      simp at heq
      omega
    · exact h2 p h q h' heq

theorem regWF_runOp {s : Registry} (hwf : RegWF s) (op : RegOp) : RegWF (runOp s op) := by
  cases op with
  | register id iss sub now => exact regWF_register hwf id iss sub now
  | revoke id reason now =>
    exact regWF_of_eq (Revoke_entries s id reason now) (Revoke_heap_length s id reason now) hwf
  | checkStatus _ => exact hwf
  | isRevoked _ => exact hwf
  | listByIssuer _ => exact hwf
  | listBySubject _ => exact hwf

theorem regWF_runOps (ops : List RegOp) {s : Registry} (hwf : RegWF s) :
    RegWF (runOps s ops) := by
  induction ops generalizing s with
  | nil => exact hwf
  | cons op rest ih => exact ih (regWF_runOp hwf op)

theorem statusOf_revoked_elim {s : Registry} {id : String}
    (h : statusOf s id = some .revoked) :
    ∃ loc, lookupEntry s.entries id = some loc ∧ (entryAt s loc).status = .revoked := by
  unfold statusOf at h
  cases hl : lookupEntry s.entries id with
  | none => rw [hl] at h; simp at h
  | some loc =>
    rw [hl] at h
    simp at h
    exact ⟨loc, rfl, h⟩

theorem entryAt_set_ne {s : Registry} {i j : Nat} (h : i ≠ j) (e : Entry) :
    entryAt { s with heap := s.heap.set i e } j = entryAt s j := by
  unfold entryAt
  exact getD_set_ne h e defaultEntry

theorem statusOf_revoked_runOp {s : Registry} {id : String} (hwf : RegWF s)
    (hst : statusOf s id = some .revoked) {op : RegOp}
    (hop : isRegisterOf id op = false) :
    statusOf (runOp s op) id = some .revoked := by
  obtain ⟨loc, hloc, hstat⟩ := statusOf_revoked_elim hst
  have hlt : loc < s.heap.length := hwf.1 _ (lookupEntry_mem hloc)
  cases op with
  | register id' iss sub now =>
    have hne : id' ≠ id := by simpa [isRegisterOf] using hop
    show statusOf (Register s id' iss sub now) id = some .revoked
    unfold statusOf Register
    simp only []
    rw [lookupEntry_insert_ne _ _ _ (Ne.symm hne), hloc]
    simp only [Option.map_some']
    unfold entryAt
    simp only []
    rw [getD_append_lt hlt]
    have hstat' := hstat
    unfold entryAt at hstat'
    rw [hstat']
  | revoke id' reason now =>
    by_cases hid : id' = id
    · subst hid
      show statusOf (Revoke s id' reason now).1 id' = some .revoked
      simp only [Revoke, hloc, if_pos hstat]
      exact hst
    · cases hl' : lookupEntry s.entries id' with
      | none =>
        show statusOf (Revoke s id' reason now).1 id = some .revoked
        simp only [Revoke, hl']
        exact hst
      | some loc' =>
        by_cases hst' : (entryAt s loc').status = .revoked
        · show statusOf (Revoke s id' reason now).1 id = some .revoked
          simp only [Revoke, hl', if_pos hst']
          exact hst
        · have hll : loc' ≠ loc := fun he =>
            hid (hwf.2 (id', loc') (lookupEntry_mem hl') (id, loc) (lookupEntry_mem hloc)
              (by rw [he]))
          show statusOf (Revoke s id' reason now).1 id = some .revoked
          simp only [Revoke, hl', if_neg hst']
          show (lookupEntry s.entries id).map _ = some Status.revoked
          rw [hloc]
          simp only [Option.map_some']
          rw [entryAt_set_ne hll, hstat]
  | checkStatus i => exact hst
  | isRevoked i => exact hst
  | listByIssuer i => exact hst
  | listBySubject i => exact hst

theorem statusOf_revoked_runOps {s : Registry} {id : String} (hwf : RegWF s)
    (hst : statusOf s id = some .revoked) {ops : List RegOp}
    (hops : ∀ op ∈ ops, isRegisterOf id op = false) :
    statusOf (runOps s ops) id = some .revoked := by
  induction ops generalizing s with
  | nil => exact hst
  | cons op rest ih =>
    exact ih (regWF_runOp hwf op)
      (statusOf_revoked_runOp hwf hst (hops op (List.mem_cons_self _ _)))
      (fun o ho => hops o (List.mem_cons_of_mem _ ho))

theorem idsMatch_empty : IdsMatch emptyRegistry := by
  intro p hp
  simp [emptyRegistry] at hp

theorem idsMatch_runOp {s : Registry} (hwf : RegWF s) (hm : IdsMatch s) (op : RegOp) :
    IdsMatch (runOp s op) := by
  cases op with
  | register id' iss sub now =>
    intro p hp
    rcases mem_insertEntry hp with h | h
    · subst h
      show (entryAt (Register s id' iss sub now) s.heap.length).credentialID = id'
      unfold entryAt Register
      simp only []
      rw [getD_append_self]
    · have hlt := hwf.1 p h
      have hm' := hm p h
      show (entryAt (Register s id' iss sub now) p.2).credentialID = p.1
      unfold entryAt Register
      simp only []
      rw [getD_append_lt hlt]
      exact hm'
  | revoke id' reason now =>
    cases hl' : lookupEntry s.entries id' with
    | none =>
      show IdsMatch (Revoke s id' reason now).1
      simp only [Revoke, hl']
      exact hm
    | some loc' =>
      by_cases hst' : (entryAt s loc').status = .revoked
      · show IdsMatch (Revoke s id' reason now).1
        simp only [Revoke, hl', if_pos hst']
        exact hm
      · have hlt' : loc' < s.heap.length := hwf.1 _ (lookupEntry_mem hl')
        show IdsMatch (Revoke s id' reason now).1
        simp only [Revoke, hl', if_neg hst']
        intro p hp
        have hp' : p ∈ s.entries := hp
        have hm' := hm p hp'
        by_cases hpl : p.2 = loc'
        · rw [hpl] at hm' ⊢
          show ((s.heap.set loc' _).getD loc' defaultEntry).credentialID = p.1
          rw [getD_set_self hlt']
          exact hm'
        · show ((s.heap.set loc' _).getD p.2 defaultEntry).credentialID = p.1
          rw [getD_set_ne (fun he => hpl he.symm)]
          exact hm'
  | checkStatus i => exact hm
  | isRevoked i => exact hm
  | listByIssuer i => exact hm
  | listBySubject i => exact hm

theorem idsMatch_runOps (ops : List RegOp) {s : Registry} (hwf : RegWF s)
    (hm : IdsMatch s) : IdsMatch (runOps s ops) := by
  induction ops generalizing s with
  | nil => exact hm
  | cons op rest ih => exact ih (regWF_runOp hwf op) (idsMatch_runOp hwf hm op)

/-- C2 counterexample: starting from the empty registry, register then
revoke leaves the entry stored under the id Revoked, but one more
operation — a silent re-register of the same id — makes the entry stored
under that id Active again. -/
theorem registry_reregister_cex :
    statusOf (runOps emptyRegistry
        [RegOp.register "urn:uuid:1" "did:key:zIssuer" "did:key:zSubject" 0,
         RegOp.revoke "urn:uuid:1" "fraud detected" 1]) "urn:uuid:1"
      = some .revoked ∧
    statusOf (runOps emptyRegistry
        [RegOp.register "urn:uuid:1" "did:key:zIssuer" "did:key:zSubject" 0,
         RegOp.revoke "urn:uuid:1" "fraud detected" 1,
         RegOp.register "urn:uuid:1" "did:key:zIssuer" "did:key:zSubject" 2]) "urn:uuid:1"
      = some .active := by
  exact ⟨by decide, by decide⟩

/-- C2 (amended): over any operation sequence from the empty registry,
once the entry stored under a credential id is Revoked it stays Revoked
under every later operation other than a `Register` of that same id
(which silently overwrites with a fresh Active entry); and the entry
stored under an id always carries exactly that id, so an entry's
credential id never changes after registration. -/
theorem registry_status_monotonic (ops1 ops2 : List RegOp) (id : String)
    (hrev : statusOf (runOps emptyRegistry ops1) id = some .revoked)
    (hno : ∀ op ∈ ops2, isRegisterOf id op = false) :
    statusOf (runOps emptyRegistry (ops1 ++ ops2)) id = some .revoked ∧
    IdsMatch (runOps emptyRegistry (ops1 ++ ops2)) := by
  have hwf1 : RegWF (runOps emptyRegistry ops1) := regWF_runOps ops1 regWF_empty
  have hsplit : runOps emptyRegistry (ops1 ++ ops2)
      = runOps (runOps emptyRegistry ops1) ops2 := by
    unfold runOps
    exact List.foldl_append _ _ _ _
  refine ⟨?_, idsMatch_runOps _ regWF_empty idsMatch_empty⟩
  rw [hsplit]
  exact statusOf_revoked_runOps hwf1 hrev hno

/-- C2 witness: a concrete revocation followed by read-only operations. -/
theorem registry_status_monotonic_witness :
    statusOf (runOps emptyRegistry
        ([RegOp.register "urn:uuid:1" "did:key:zIssuer" "did:key:zSubject" 0,
          RegOp.revoke "urn:uuid:1" "fraud detected" 1] ++
         [RegOp.checkStatus "urn:uuid:1", RegOp.listByIssuer "did:key:zIssuer"]))
      "urn:uuid:1" = some .revoked :=
  (registry_status_monotonic _ _ _ (by decide) (by decide)).1

/-- C3 counterexample: `CheckStatus` hands back the stored entry itself,
not a copy — a caller mutating the returned entry flips the status that
a subsequent `CheckStatus`-based read observes. -/
theorem checkStatus_alias_mutation_cex :
    CheckStatus (Register emptyRegistry "urn:uuid:1" "did:i" "did:s" 0) "urn:uuid:1"
      = .ok 0 ∧
    statusOf (Register emptyRegistry "urn:uuid:1" "did:i" "did:s" 0) "urn:uuid:1"
      = some .active ∧
    statusOf (writeStatusAt (Register emptyRegistry "urn:uuid:1" "did:i" "did:s" 0)
        0 .revoked) "urn:uuid:1" = some .revoked := by
  exact ⟨rfl, by decide, by decide⟩

/-- C3 (amended): `CheckStatus` fails NotFound exactly when no entry with
the id exists, and otherwise returns the stored entry pointer itself
(not a copy): writing through the returned pointer is visible to every
subsequent read of the registry. -/
theorem checkStatus_returns_alias (s : Registry) (id : String) (hwf : RegWF s) :
    (CheckStatus s id = .error .notFound ↔ lookupEntry s.entries id = none) ∧
    ∀ loc, CheckStatus s id = .ok loc →
      lookupEntry s.entries id = some loc ∧
      ∀ st, statusOf (writeStatusAt s loc st) id = some st := by
  constructor
  · constructor
    · intro h
      cases hl : lookupEntry s.entries id with
      | none => rfl
      | some loc =>
        unfold CheckStatus at h
        rw [hl] at h
        exact absurd h (by simp)
    · intro h
      unfold CheckStatus
      rw [h]
  · intro loc h
    have hl : lookupEntry s.entries id = some loc := by
      unfold CheckStatus at h
      cases hl : lookupEntry s.entries id with
      | none => rw [hl] at h; exact absurd h (by simp)
      | some l =>
        rw [hl] at h
        simp at h
        rw [h]
    refine ⟨hl, fun st => ?_⟩
    have hlt : loc < s.heap.length := hwf.1 _ (lookupEntry_mem hl)
    show (lookupEntry s.entries id).map _ = some st
    rw [hl]
    simp only [Option.map_some']
    have hset : entryAt (writeStatusAt s loc st) loc = { entryAt s loc with status := st } := by
      unfold entryAt writeStatusAt
      simp only []
      exact getD_set_self hlt _ _
    rw [hset]

/-- C3 witness: the aliasing conclusion at a concrete one-entry registry. -/
theorem checkStatus_returns_alias_witness :
    statusOf (writeStatusAt (Register emptyRegistry "urn:uuid:2" "did:i" "did:s" 0)
        0 .revoked) "urn:uuid:2" = some .revoked :=
  (((checkStatus_returns_alias (Register emptyRegistry "urn:uuid:2" "did:i" "did:s" 0)
      "urn:uuid:2" (by unfold RegWF; exact ⟨by decide, by decide⟩)).2) 0 rfl).2 .revoked

/-- C8: `Revoke` fails NotFound exactly when no entry exists and
AlreadyRevoked exactly when the entry is already Revoked; otherwise it
succeeds, setting status Revoked, revoked-at to the current time and the
given reason, after which `IsRevoked` answers true and a second revoke
of the same id fails AlreadyRevoked. -/
theorem revoke_spec (s : Registry) (id reason : String) (now : Int) (hwf : RegWF s) :
    (lookupEntry s.entries id = none → Revoke s id reason now = (s, some .notFound)) ∧
    (∀ loc, lookupEntry s.entries id = some loc → (entryAt s loc).status = .revoked →
      Revoke s id reason now = (s, some .alreadyRevoked)) ∧
    (∀ loc, lookupEntry s.entries id = some loc → (entryAt s loc).status = .active →
      (Revoke s id reason now).2 = none ∧
      entryAt (Revoke s id reason now).1 loc
        = { entryAt s loc with status := .revoked, revokedAt := now, reason := reason } ∧
      IsRevoked (Revoke s id reason now).1 id = .ok true ∧
      ∀ (r2 : String) (t2 : Int),
        Revoke (Revoke s id reason now).1 id r2 t2
          = ((Revoke s id reason now).1, some .alreadyRevoked)) := by
  refine ⟨?_, ?_, ?_⟩
  · intro h
    simp only [Revoke, h]
  · intro loc hl hst
    simp only [Revoke, hl, if_pos hst]
  · intro loc hl hst
    have hact : ¬(entryAt s loc).status = .revoked := by
      rw [hst]
      intro h
      exact Status.noConfusion h
    have hlt : loc < s.heap.length := hwf.1 _ (lookupEntry_mem hl)
    have hrev : Revoke s id reason now
        = (Registry.mk
            (s.heap.set loc
              { entryAt s loc with status := .revoked, revokedAt := now, reason := reason })
            s.entries,
           none) := by
      simp only [Revoke, hl, if_neg hact]
    rw [hrev]
    have hent : entryAt
          (Registry.mk
            (s.heap.set loc
              { entryAt s loc with status := .revoked, revokedAt := now, reason := reason })
            s.entries) loc
        = { entryAt s loc with status := .revoked, revokedAt := now, reason := reason } := by
      unfold entryAt
      simp only []
      exact getD_set_self hlt _ _
    refine ⟨rfl, hent, ?_, ?_⟩
    · unfold IsRevoked CheckStatus
      simp only [hl, hent]
      simp
    · intro r2 t2
      simp only [Revoke, hl, hent]
      simp

/-- C8 witness: register then revoke on a concrete registry, checked
revoked. -/
theorem revoke_spec_witness :
    IsRevoked (Revoke (Register emptyRegistry "urn:uuid:3" "did:i" "did:s" 0)
        "urn:uuid:3" "fraud detected" 1).1 "urn:uuid:3" = .ok true :=
  ((revoke_spec (Register emptyRegistry "urn:uuid:3" "did:i" "did:s" 0)
      "urn:uuid:3" "fraud detected" 1
      (by unfold RegWF; exact ⟨by decide, by decide⟩)).2.2 0 (by decide) (by decide)).2.2.1

/-- C10: whenever `Revoke` returns NotFound or AlreadyRevoked, the
registry's entry map and heap are exactly as before the call. -/
theorem revoke_error_frame (s : Registry) (id reason : String) (now : Int) (e : RevErr)
    (h : (Revoke s id reason now).2 = some e) : (Revoke s id reason now).1 = s := by
  cases hl : lookupEntry s.entries id with
  | none => simp only [Revoke, hl]
  | some loc =>
    by_cases hst : (entryAt s loc).status = .revoked
    · simp only [Revoke, hl, if_pos hst]
    · exfalso
      simp only [Revoke, hl, if_neg hst] at h
      exact Option.noConfusion h

/-- C10 witness: a NotFound revoke on the empty registry leaves it
unchanged. -/
theorem revoke_error_frame_witness :
    (Revoke emptyRegistry "urn:uuid:9" "fraud" 0).1 = emptyRegistry :=
  revoke_error_frame emptyRegistry "urn:uuid:9" "fraud" 0 .notFound (by decide)

/-! ## Lemmas and claims: credential and presentation tokens -/

/-- C1 counterexample: a credential issued at time 0 and verified just
after its expires-at is rejected by `VerifyVC` itself (the parser's
not-expired rule), rather than succeeding with the claims. -/
theorem vc_verify_expired_cex :
    (IssueVCWithID "did:key:zIss" "did:key:zSub" (List.range 64)
        (.identity sampleIdentity) "urn:uuid:7" 0).bind
      (fun tok => VerifyVC tok ((List.range 64).drop 32) (yearSeconds + 1))
      = .error .expired := rfl

/-- C1 (amended): `VerifyVC` does, by itself, reject the token on
expiry: for a token produced by issuance and its issuer's public key,
verification at any time after the expires-at claim fails with the
Expired error of the parser's default not-expired rule. -/
theorem vc_verify_rejects_expired (issuerDID subjectDID credentialID : String)
    (priv pub : List Nat) (cs : CredentialSubject) (t0 t1 : Int)
    (hlen : priv.length = 64) (hpub : pub = pubOfPriv priv)
    (hexp : t1 > t0 + yearSeconds) :
    (IssueVCWithID issuerDID subjectDID priv cs credentialID t0).bind
        (fun tok => VerifyVC tok pub t1) = .error .expired := by
  have hlen32 : (pubOfPriv priv).length = 32 := by simp [pubOfPriv, hlen]
  simp [IssueVCWithID, VerifyVC, parseV4Public, Except.bind, hlen, hlen32, hpub, hexp]

/-- C1 witness: concrete expired verification. -/
theorem vc_verify_rejects_expired_witness :
    (IssueVCWithID "did:key:zIss" "did:key:zSub" (List.range 64)
        (.identity sampleIdentity) "" 0).bind
      (fun tok => VerifyVC tok ((List.range 64).drop 32) (yearSeconds + 1))
      = .error .expired :=
  vc_verify_rejects_expired "did:key:zIss" "did:key:zSub" "" (List.range 64)
    ((List.range 64).drop 32) (.identity sampleIdentity) 0 (yearSeconds + 1)
    (by decide) rfl (by unfold yearSeconds; omega)

/-- C5: for every subject variant, valid key pair, and credential id,
verifying an issued credential with the issuer's public key succeeds and
returns the issuance inputs (issuer, subject, credential-type list and
credential id), while verification with any other valid public key fails
with SignatureInvalid. -/
theorem vc_roundtrip (issuerDID subjectDID credentialID : String)
    (priv pub : List Nat) (cs : CredentialSubject) (now : Int)
    (hlen : priv.length = 64) (hpub : pub = pubOfPriv priv) :
    ((IssueVCWithID issuerDID subjectDID priv cs credentialID now).bind
        (fun tok => VerifyVC tok pub now)).map
        (fun c => (c.issuer, c.subject, c.vc.type, c.GetCredentialID))
      = .ok (issuerDID, subjectDID,
             ["VerifiableCredential", cs.credentialType], credentialID) ∧
    ∀ otherPub : List Nat, otherPub.length = 32 → otherPub ≠ pub →
      (IssueVCWithID issuerDID subjectDID priv cs credentialID now).bind
          (fun tok => VerifyVC tok otherPub now)
        = .error .signatureInvalid := by
  have hlen32 : (pubOfPriv priv).length = 32 := by simp [pubOfPriv, hlen]
  have hexp : ¬(now > now + yearSeconds) := by unfold yearSeconds; omega
  have hexp2 : ¬(yearSeconds < (0 : Int)) := by decide
  constructor
  · by_cases hc : credentialID = ""
    · simp [IssueVCWithID, VerifyVC, parseV4Public, VCClaims.GetCredentialID,
        Except.bind, Except.map, hlen, hlen32, hpub, hexp, hexp2, hc]
    · simp [IssueVCWithID, VerifyVC, parseV4Public, VCClaims.GetCredentialID,
        Except.bind, Except.map, hlen, hlen32, hpub, hexp, hexp2, hc]
  · intro otherPub hoplen hne
    have hsig : pubOfPriv priv ≠ otherPub := fun he => hne (by rw [hpub, he])
    simp [IssueVCWithID, VerifyVC, parseV4Public, Except.bind, hlen, hoplen, hsig]

/-- C5 witness: concrete round trip and wrong-key failure. -/
theorem vc_roundtrip_witness :
    ((IssueVCWithID "did:key:zIss" "did:key:zSub" (List.range 64)
          (.identity sampleIdentity) "urn:uuid:7" 0).bind
        (fun tok => VerifyVC tok ((List.range 64).drop 32) 0)).map
        (fun c => (c.issuer, c.subject, c.vc.type, c.GetCredentialID))
      = .ok ("did:key:zIss", "did:key:zSub",
             ["VerifiableCredential", "IdentityCredential"], "urn:uuid:7") ∧
    (IssueVCWithID "did:key:zIss" "did:key:zSub" (List.range 64)
        (.identity sampleIdentity) "urn:uuid:7" 0).bind
      (fun tok => VerifyVC tok (List.replicate 32 0) 0)
      = .error .signatureInvalid :=
  ⟨(vc_roundtrip "did:key:zIss" "did:key:zSub" "urn:uuid:7" (List.range 64)
      ((List.range 64).drop 32) (.identity sampleIdentity) 0 (by decide) rfl).1,
   (vc_roundtrip "did:key:zIss" "did:key:zSub" "urn:uuid:7" (List.range 64)
      ((List.range 64).drop 32) (.identity sampleIdentity) 0 (by decide) rfl).2
     (List.replicate 32 0) (by decide) (by decide)⟩

/-- C6: presentation round trip: verifying a created presentation with
the holder's key, same audience and same nonce succeeds and returns
exactly the embedded credential tokens in order; a different non-empty
expected audience fails AudienceMismatch; a different non-empty expected
nonce fails NonceMismatch; an empty expected audience or nonce skips the
corresponding check. -/
theorem vp_roundtrip (holderDID audience nonce presentationID : String)
    (priv pub : List Nat) (credentials : List String) (now : Int)
    (hlen : priv.length = 64) (hpub : pub = pubOfPriv priv)
    (hne : credentials ≠ []) :
    ((CreatePresentation holderDID priv credentials audience nonce presentationID now).bind
        (fun tok => VerifyPresentation tok pub audience nonce now)).map
        (fun c => c.vp.verifiableCredential) = .ok credentials ∧
    (∀ aud2 : String, aud2 ≠ "" → aud2 ≠ audience →
      (CreatePresentation holderDID priv credentials audience nonce presentationID now).bind
          (fun tok => VerifyPresentation tok pub aud2 nonce now)
        = .error .audienceMismatch) ∧
    (∀ n2 : String, n2 ≠ "" → n2 ≠ nonce →
      (CreatePresentation holderDID priv credentials audience nonce presentationID now).bind
          (fun tok => VerifyPresentation tok pub audience n2 now)
        = .error .nonceMismatch) ∧
    ((CreatePresentation holderDID priv credentials audience nonce presentationID now).bind
        (fun tok => VerifyPresentation tok pub "" nonce now)).map
        (fun c => c.vp.verifiableCredential) = .ok credentials ∧
    ((CreatePresentation holderDID priv credentials audience nonce presentationID now).bind
        (fun tok => VerifyPresentation tok pub audience "" now)).map
        (fun c => c.vp.verifiableCredential) = .ok credentials := by
  have hlen32 : (pubOfPriv priv).length = 32 := by simp [pubOfPriv, hlen]
  have hexp : ¬(now > now + fifteenMinutes) := by unfold fifteenMinutes; omega
  have hexp2 : ¬(fifteenMinutes < (0 : Int)) := by decide
  have hcne : ¬credentials.isEmpty := by simpa [List.isEmpty_iff] using hne
  refine ⟨?_, ?_, ?_, ?_, ?_⟩
  · simp [CreatePresentation, VerifyPresentation, parseV4Public, Except.bind, Except.map,
      hcne, hlen, hlen32, hpub, hexp, hexp2]
  · intro aud2 h2 hne2
    have hne2' : audience ≠ aud2 := fun he => hne2 he.symm
    simp [CreatePresentation, VerifyPresentation, parseV4Public, Except.bind, Except.map,
      hcne, hlen, hlen32, hpub, h2, hne2', hexp, hexp2]
  · intro n2 h2 hne2
    have hne2' : nonce ≠ n2 := fun he => hne2 he.symm
    simp [CreatePresentation, VerifyPresentation, parseV4Public, Except.bind, Except.map,
      hcne, hlen, hlen32, hpub, h2, hne2', hexp, hexp2]
  · simp [CreatePresentation, VerifyPresentation, parseV4Public, Except.bind, Except.map,
      hcne, hlen, hlen32, hpub, hexp, hexp2]
  · simp [CreatePresentation, VerifyPresentation, parseV4Public, Except.bind, Except.map,
      hcne, hlen, hlen32, hpub, hexp, hexp2]

/-- C6 witness: concrete two-credential presentation round trip and a
wrong-audience failure. -/
theorem vp_roundtrip_witness :
    ((CreatePresentation "did:key:zHolder" (List.range 64) ["tok1", "tok2"]
          "did:key:zVerifier" "nonce1" "urn:uuid:8" 0).bind
        (fun tok => VerifyPresentation tok ((List.range 64).drop 32)
          "did:key:zVerifier" "nonce1" 0)).map
        (fun c => c.vp.verifiableCredential) = .ok ["tok1", "tok2"] ∧
    (CreatePresentation "did:key:zHolder" (List.range 64) ["tok1", "tok2"]
        "did:key:zVerifier" "nonce1" "urn:uuid:8" 0).bind
      (fun tok => VerifyPresentation tok ((List.range 64).drop 32)
        "did:key:zOther" "nonce1" 0)
      = .error .audienceMismatch :=
  ⟨(vp_roundtrip "did:key:zHolder" "did:key:zVerifier" "nonce1" "urn:uuid:8"
      (List.range 64) ((List.range 64).drop 32) ["tok1", "tok2"] 0
      (by decide) rfl (by decide)).1,
   (vp_roundtrip "did:key:zHolder" "did:key:zVerifier" "nonce1" "urn:uuid:8"
      (List.range 64) ((List.range 64).drop 32) ["tok1", "tok2"] 0
      (by decide) rfl (by decide)).2.1 "did:key:zOther" (by decide) (by decide)⟩
